import Mathlib

/-!
The commit cache wrapper of git-who (internal/cache/cache.go).

A shallow embedding of package `cache`: the environment toggle
`IsCachingEnabled`, the `Result` value with `EmptyResult` and `AnyHits`, the
`Backend` capability, and the instrumented wrapper `Cache` with its three
operations `Get`, `Add` and `Clear`.

Go values are embedded as follows.
* A slice is `Option (List α)`: `none` is the nil slice, `some xs` a non-nil one.
* An `error` interface value is `Option GoError`: `none` is nil.
* An `iter.Seq2` value is a push iterator: a function that drives a `yield`
  callback. The callback's effects are threaded as an explicit consumer state.
  A nullable iterator field is an `Option`.
* A backend is a record of state-passing functions over its storage state `σ`.
* The wrapper runs in a `World`: the backend's storage, a trace of the backend
  methods invoked so far, the debug records emitted so far, and the clock read
  by `time.Now()`.
* A panic is the `panic` constructor of `Outcome`.
-/

namespace GitWho

/-! ## Go runtime values -/

/-- A Go slice: `none` is the nil slice. -/
abbrev Slice (α : Type) := Option (List α)

/-- The elements a `range` loop over the slice visits. A nil slice has none. -/
def Slice.elems {α : Type} : Slice α → List α
  | none => []
  | some xs => xs

/-- Go builtin `len` on a slice. A nil slice has length 0. -/
def Slice.len {α : Type} (s : Slice α) : Nat := s.elems.length

/-- Go builtin `len` on a string: its number of bytes. -/
def strLen (s : String) : Nat := s.utf8ByteSize

/-- A non-nil Go `error` value: its `Error()` text and what `Unwrap()` gives.
`wrapped` is the value `fmt.Errorf` builds for a `%w` verb. -/
inductive GoError where
  | plain (msg : String)
  | wrapped (msg : String) (inner : GoError)
  deriving DecidableEq, Repr

/-- Method `Error()`. -/
def GoError.Error : GoError → String
  | .plain msg => msg
  | .wrapped msg _ => msg

/-- Method `Unwrap()`, as `errors.Unwrap` reads it: `none` when there is nothing
inside. -/
def GoError.Unwrap : GoError → Option GoError
  | .plain _ => none
  | .wrapped _ inner => some inner

/-- Go standard library `fmt.Errorf(text + "%w", err)` for a format that is a
literal text followed by a single `%w`: the message is the text followed by
`err.Error()`, and the result unwraps to `err`. -/
def fmtErrorf (text : String) (err : GoError) : GoError :=
  .wrapped (text ++ err.Error) err

/-- Go `iter.Seq[V]`, that is `func(yield func(V) bool)`. The consumer's state
`β` is threaded through `yield`; the boolean is what `yield` returns, `false`
asking the iterator to stop. -/
def Seq (V : Type) : Type 1 :=
  (β : Type) → (V → β → Bool × β) → β → β

/-- Go `iter.Seq2[K, V]`, that is `func(yield func(K, V) bool)`. -/
def Seq2 (K V : Type) : Type 1 :=
  (β : Type) → (K → V → β → Bool × β) → β → β

/-- The loop `for _, v := range s { if !yield(v) { return } }`. -/
def rangeSlice {E β : Type} (yield : E → β → Bool × β) : List E → β → β
  | [], st => st
  | v :: rest, st =>
    match yield v st with
    | (true, st1) => rangeSlice yield rest st1
    | (false, st1) => st1

/-- Go standard library `slices.Values`: the iterator over the elements of a
slice, in order. -/
def slicesValues {E : Type} (s : Slice E) : Seq E :=
  fun _ yield st => rangeSlice yield s.elems st

/-- Modelled from the spec: `iterutils.WithoutErrors` lives in
internal/utils/iterutils, which is not part of the source at hand. It turns a
sequence of values into the sequence of (value, error) pairs whose error is
always nil: `for v := range seq { if !yield(v, nil) { return } }`. -/
def WithoutErrors {V : Type} (seq : Seq V) : Seq2 V (Option GoError) :=
  fun β yield st => seq β (fun v s => yield v none s) st

/-- A full traversal `for k, v := range seq { pairs = append(pairs, (k, v)) }`:
the pairs handed to the loop body, in order. -/
def Seq2.collect {K V : Type} (seq : Seq2 K V) : List (K × V) :=
  seq (List (K × V)) (fun k v acc => (true, acc ++ [(k, v)])) []

/-! ## The environment toggle -/

/-- The process environment: the value of each variable that is set. -/
abbrev Environ := String → Option String

/-- Go standard library `os.Getenv`: the value of the variable, or the empty
string when it is not set. -/
def Getenv (env : Environ) (key : String) : String :=
  match env key with
  | some v => v
  | none => ""

/-- Source: `IsCachingEnabled` (cache.go 15-21). -/
def IsCachingEnabled (env : Environ) : Bool :=
  if strLen (Getenv env "GIT_WHO_DISABLE_CACHE") > 0 then
    false
  else
    true

/-! ## Result -/

/-- Source: `Result` (cache.go 23-26). `Commits` is a nullable iterator. -/
structure Result (Commit : Type) where
  Revs : Slice String
  Commits : Option (Seq2 Commit (Option GoError))

/-- Source: `EmptyResult` (cache.go 30-34). `Revs` is left at its zero value,
the nil slice; `Commits` iterates over the empty, non-nil slice literal. -/
def EmptyResult (Commit : Type) : Result Commit :=
  { Revs := none
    Commits := some (WithoutErrors (slicesValues (some ([] : List Commit)))) }

/-- Source: `Result.AnyHits` (cache.go 36-38). -/
def Result.AnyHits {Commit : Type} (r : Result Commit) : Bool :=
  decide (r.Revs.len > 0)

/-! ## Backend, world and instrumentation -/

/-- Source: `Backend` (cache.go 40-45). Each method takes the storage state and
returns its results with the storage state it leaves. -/
structure Backend (Commit σ : Type) where
  Name : σ → String × σ
  Get : Slice String → σ → (Result Commit × Option GoError) × σ
  Add : Slice Commit → σ → Option GoError × σ
  Clear : σ → Option GoError × σ

/-- One invocation of a backend method, with its arguments. -/
inductive Call (Commit : Type) where
  | name
  | get (revs : Slice String)
  | add (commits : Slice Commit)
  | clear

/-- A value of a structured log field. -/
inductive LogValue where
  | int (n : Int)
  | bool (b : Bool)
  deriving DecidableEq, Repr

/-- One debug record: its label and its fields, in order. -/
structure LogRecord where
  msg : String
  fields : List (String × LogValue)
  deriving DecidableEq, Repr

/-- A reading of `time.Now()`, in nanoseconds. -/
abbrev Time := Int

/-- Go `time.Duration`: an int64 count of nanoseconds. -/
abbrev Duration := Int

/-- Everything a cache operation reads or changes. -/
structure World (Commit σ : Type) where
  store : σ
  calls : List (Call Commit)
  log : List LogRecord
  clock : Nat → Time
  ticks : Nat

/-- Go standard library `time.Now()`: the next reading of the clock. -/
def timeNow {Commit σ : Type} (w : World Commit σ) : Time × World Commit σ :=
  (w.clock w.ticks, { w with ticks := w.ticks + 1 })

def minDuration : Int := -(2 ^ 63)

def maxDuration : Int := 2 ^ 63 - 1

/-- Go standard library `Time.Sub`: the difference, saturated to the range of a
`Duration`. -/
def timeSub (t u : Time) : Duration :=
  let d := t - u
  if d < minDuration then minDuration
  else if d > maxDuration then maxDuration
  else d

/-- Go standard library `Duration.Milliseconds`: integer division by 1e6,
truncated toward zero. -/
def Milliseconds (d : Duration) : Int := Int.tdiv d 1000000

/-- Modelled from the spec: `logger()` is defined elsewhere in package cache.
`logger().Debug(msg, key, value, ...)` appends one record, with the label and
the fields given, to the list of debug records. -/
def loggerDebug {Commit σ : Type} (msg : String) (fields : List (String × LogValue))
    (w : World Commit σ) : World Commit σ :=
  { w with log := w.log ++ [{ msg := msg, fields := fields }] }

/-- The call `c.backend.Name()`. -/
def backendName {Commit σ : Type} (b : Backend Commit σ) (w : World Commit σ) :
    String × World Commit σ :=
  let out := b.Name w.store
  (out.1, { w with store := out.2, calls := w.calls ++ [Call.name] })

/-- The call `c.backend.Get(revs)`. -/
def backendGet {Commit σ : Type} (b : Backend Commit σ) (revs : Slice String)
    (w : World Commit σ) : (Result Commit × Option GoError) × World Commit σ :=
  let out := b.Get revs w.store
  (out.1, { w with store := out.2, calls := w.calls ++ [Call.get revs] })

/-- The call `c.backend.Add(commits)`. -/
def backendAdd {Commit σ : Type} (b : Backend Commit σ) (commits : Slice Commit)
    (w : World Commit σ) : Option GoError × World Commit σ :=
  let out := b.Add commits w.store
  (out.1, { w with store := out.2, calls := w.calls ++ [Call.add commits] })

/-- The call `c.backend.Clear()`. -/
def backendClear {Commit σ : Type} (b : Backend Commit σ) (w : World Commit σ) :
    Option GoError × World Commit σ :=
  let out := b.Clear w.store
  (out.1, { w with store := out.2, calls := w.calls ++ [Call.clear] })

/-! ## Cache -/

/-- How a call ends: it returns its results, or it panics with a message. -/
inductive Outcome (α : Type 1) where
  | ret (v : α)
  | panic (msg : String)

/-- Whether the call ended in a panic. -/
def Outcome.panicked {α : Type 1} : Outcome α → Bool
  | .ret _ => false
  | .panic _ => true

/-- Source: `Cache` (cache.go 47-49). -/
structure Cache (Commit σ : Type) where
  backend : Backend Commit σ

/-- Source: `NewCache` (cache.go 51-55). -/
def NewCache {Commit σ : Type} (backend : Backend Commit σ) : Cache Commit σ :=
  { backend := backend }

/-- Source: `Cache.Name` (cache.go 57-59). -/
def Cache.Name {Commit σ : Type} (c : Cache Commit σ) (w : World Commit σ) :
    String × World Commit σ :=
  backendName c.backend w

/-- The text before `%w` in the format of `Cache.Get` (cache.go 64). -/
def getContext : String := "failed to retrieve from cache: "

/-- The message of the panic in `Cache.Get` (cache.go 86). -/
def nilCommitsPanic : String :=
  "Cache backend returned nil commits iterator; this isn't kosher!"

/-- The deferred function of `Cache.Get` (cache.go 62-66), acting on the named
result `err`. -/
def Cache.Get.deferred (err : Option GoError) : Option GoError :=
  match err with
  | some e => some (fmtErrorf getContext e)
  | none => none

/-- The body of `Cache.Get` (cache.go 68-89), before the deferred function
runs. A `ret` carries the values given to `return`; the named result `err` is
the backend error, so it is nil whenever the body panics. -/
def Cache.Get.body {Commit σ : Type} (c : Cache Commit σ) (revs : Slice String)
    (w : World Commit σ) : Outcome (Result Commit × Option GoError) × World Commit σ :=
  let (start, w1) := timeNow w
  let ((result, err), w2) := backendGet c.backend revs w1
  match err with
  | some e => (.ret (result, some e), w2)
  | none =>
    let (now, w3) := timeNow w2
    let elapsed := timeSub now start
    let w4 := loggerDebug "cache get"
      [("duration_ms", .int (Milliseconds elapsed)), ("hit", .bool result.AnyHits)] w3
    match result.Commits with
    | none => (.panic nilCommitsPanic, w4)
    | some _ => (.ret (result, none), w4)

/-- Source: `Cache.Get` (cache.go 61-90): the body, then the deferred function.
On a return the deferred function rewrites the named result `err`. On a panic
it runs with `err` nil, changes nothing, and the panic goes on. -/
def Cache.Get {Commit σ : Type} (c : Cache Commit σ) (revs : Slice String)
    (w : World Commit σ) : Outcome (Result Commit × Option GoError) × World Commit σ :=
  match Cache.Get.body c revs w with
  | (.ret (result, err), w1) => (.ret (result, Cache.Get.deferred err), w1)
  | (.panic msg, w1) => (.panic msg, w1)

/-- Source: `Cache.Add` (cache.go 92-108). -/
def Cache.Add {Commit σ : Type} (c : Cache Commit σ) (commits : Slice Commit)
    (w : World Commit σ) : Option GoError × World Commit σ :=
  let (start, w1) := timeNow w
  let (err, w2) := backendAdd c.backend commits w1
  match err with
  | some e => (some e, w2)
  | none =>
    let (now, w3) := timeNow w2
    let elapsed := timeSub now start
    let w4 := loggerDebug "cache add" [("duration_ms", .int (Milliseconds elapsed))] w3
    (none, w4)

/-- Source: `Cache.Clear` (cache.go 110-118). -/
def Cache.Clear {Commit σ : Type} (c : Cache Commit σ) (w : World Commit σ) :
    Option GoError × World Commit σ :=
  let (err, w1) := backendClear c.backend w
  match err with
  | some e => (some e, w1)
  | none =>
    let w2 := loggerDebug "cache clear" [] w1
    (none, w2)

/-- The record `Cache.Get` emits after a successful backend call. -/
def getRecord {Commit σ : Type} (w : World Commit σ) (r : Result Commit) : LogRecord :=
  { msg := "cache get"
    fields := [("duration_ms", .int (Milliseconds (timeSub (w.clock (w.ticks + 1)) (w.clock w.ticks)))),
      ("hit", .bool r.AnyHits)] }

/-- The world `Cache.Get` leaves after a successful backend call. -/
def getWorld {Commit σ : Type} (b : Backend Commit σ) (revs : Slice String)
    (w : World Commit σ) : World Commit σ :=
  { store := (b.Get revs w.store).2
    calls := w.calls ++ [Call.get revs]
    log := w.log ++ [getRecord w (b.Get revs w.store).1.1]
    clock := w.clock
    ticks := w.ticks + 2 }

/-- The record `Cache.Add` emits after a successful backend call. -/
def addRecord {Commit σ : Type} (w : World Commit σ) : LogRecord :=
  { msg := "cache add"
    fields := [("duration_ms", .int (Milliseconds (timeSub (w.clock (w.ticks + 1)) (w.clock w.ticks))))] }

/-- The record `Cache.Clear` emits after a successful backend call. -/
def clearRecord : LogRecord :=
  { msg := "cache clear", fields := [] }

/-- A world in which nothing has happened yet. -/
def World.init {Commit σ : Type} (store : σ) (clock : Nat → Time) : World Commit σ :=
  { store := store, calls := [], log := [], clock := clock, ticks := 0 }

/-! ## The backend contract and the end-to-end scenario -/

/-- The contract on a backend over the storage state `s0` it starts in: it
starts empty; `Get` always returns a non-nil `Commits`; after a successful `Add`
of a commit its revision is reported as a hit; after a successful `Clear` no
revision is reported as a hit. -/
def BackendContract {Commit σ : Type} (hash : Commit → String) (b : Backend Commit σ)
    (s0 : σ) : Prop :=
  (∀ revs, (b.Get revs s0).1.1.Revs.len = 0) ∧
  (∀ revs s, (b.Get revs s).1.1.Commits ≠ none) ∧
  (∀ cs s a, a ∈ Slice.elems cs → (b.Add cs s).1 = none →
    hash a ∈ (b.Get (some [hash a]) (b.Add cs s).2).1.1.Revs.elems) ∧
  (∀ revs s, (b.Clear s).1 = none → (b.Get revs (b.Clear s).2).1.1.Revs.len = 0)

/-- The end-to-end scenario on a cache over `b`, from the world `w0`, for the
commit `a`: `Add([a])` returns nil; `Get([h])` returns `Revs == [h]`, a nil
error and a sequence yielding exactly the pair `(a, nil)`; `Clear()` returns
nil; `Get([h])` returns empty `Revs` and a nil error. -/
def CacheScenario {Commit σ : Type} (hash : Commit → String) (b : Backend Commit σ)
    (w0 : World Commit σ) (a : Commit) : Prop :=
  let c := NewCache b
  let step1 := Cache.Add c (some [a]) w0
  let step2 := Cache.Get c (some [hash a]) step1.2
  let step3 := Cache.Clear c step2.2
  let step4 := Cache.Get c (some [hash a]) step3.2
  step1.1 = none ∧
  (∃ r seq, step2.1 = .ret (r, none) ∧ r.Revs.elems = [hash a] ∧
    r.Commits = some seq ∧ seq.collect = [(a, none)]) ∧
  step3.1 = none ∧
  (∃ r, step4.1 = .ret (r, none) ∧ r.Revs.len = 0)

/-- The same four calls made on the backend itself, from the storage state
`s0`, none of them failing: `Add([a])` returns nil; `Get([h])` returns a nil
error, `Revs == [h]` and a sequence yielding exactly `(a, nil)`; `Clear()`
returns nil; the second `Get([h])` returns a nil error. -/
def BackendSucceeds {Commit σ : Type} (hash : Commit → String) (b : Backend Commit σ)
    (s0 : σ) (a : Commit) : Prop :=
  let step1 := b.Add (some [a]) s0
  let step2 := b.Get (some [hash a]) step1.2
  let step3 := b.Clear step2.2
  let step4 := b.Get (some [hash a]) step3.2
  step1.1 = none ∧
  (step2.1.2 = none ∧ step2.1.1.Revs.elems = [hash a] ∧
    ∃ seq, step2.1.1.Commits = some seq ∧ seq.collect = [(a, none)]) ∧
  step3.1 = none ∧
  step4.1.2 = none

/-! ## Example backends -/

/-- A commit record for the examples. `git.Commit` is declared in internal/git;
the cache moves it and never inspects it. -/
structure DemoCommit where
  Hash : String
  Subject : String
  deriving DecidableEq, Repr

/-- An in-memory backend: the storage is the list of commits added so far. -/
def memBackend : Backend DemoCommit (List DemoCommit) where
  Name := fun s => ("memory", s)
  Get := fun revs s =>
    let hits := s.filter (fun c => decide (c.Hash ∈ Slice.elems revs))
    (({ Revs := some (hits.map DemoCommit.Hash)
        Commits := some (WithoutErrors (slicesValues (some hits))) }, none), s)
  Add := fun commits s =>
    let fresh := Slice.elems commits
    (none, s.filter (fun c => decide (c.Hash ∉ fresh.map DemoCommit.Hash)) ++ fresh)
  Clear := fun _ => (none, [])

/-- A backend over storage that cannot be written: `Get` finds nothing, `Add`
fails, `Clear` has nothing to remove. -/
def readOnlyBackend : Backend DemoCommit Unit where
  Name := fun s => ("read-only", s)
  Get := fun _ s => ((EmptyResult DemoCommit, none), s)
  Add := fun _ s => (some (.plain "read-only file system"), s)
  Clear := fun s => (none, s)

/-- A backend whose `Get` fails and returns the zero `Result` with its error,
as `return Result{}, err` does. -/
def failingBackend : Backend DemoCommit Unit where
  Name := fun s => ("failing", s)
  Get := fun _ s => (({ Revs := none, Commits := none }, some (.plain "database is locked")), s)
  Add := fun _ s => (some (.plain "database is locked"), s)
  Clear := fun s => (some (.plain "database is locked"), s)

/-- A backend that breaks the contract: `Get` succeeds and returns the zero
`Result`, whose `Commits` is nil. -/
def brokenBackend : Backend DemoCommit Unit where
  Name := fun s => ("broken", s)
  Get := fun _ s => (({ Revs := none, Commits := none }, none), s)
  Add := fun _ s => (none, s)
  Clear := fun s => (none, s)

/-- The commit of the examples. -/
def commitA : DemoCommit := { Hash := "A", Subject := "initial commit" }

/-- A clock for the examples: one millisecond between readings. -/
def demoClock : Nat → Time := fun n => 1000000 * (n : Int)

/-- The environment in which only the variable `key` is set, to `value`. -/
def envWith (key value : String) : Environ :=
  fun k => if k = key then some value else none

/-- The environment that keeps of `env` only the variable `key`. -/
def envOnly (env : Environ) (key : String) : Environ :=
  fun k => if k = key then env key else none

/-! ## Auxiliary lemmas -/

theorem utf8ByteSize_go_pos (c : Char) (cs : List Char) :
    0 < String.utf8ByteSize.go (c :: cs) := by
  have h := Char.utf8Size_pos c
  simp only [String.utf8ByteSize.go]
  omega

/-- A Go string has length 0 exactly when it is the empty string. -/
theorem strLen_eq_zero_iff (s : String) : strLen s = 0 ↔ s = "" := by
  constructor
  · intro h
    cases s with
    | mk data =>
      cases data with
      | nil => rfl
      | cons c cs =>
        have hp := utf8ByteSize_go_pos c cs
        simp only [strLen, String.utf8ByteSize] at h
        omega
  · intro h
    subst h
    rfl

theorem strLen_pos_iff (s : String) : 0 < strLen s ↔ s ≠ "" := by
  rw [Nat.pos_iff_ne_zero, Ne, strLen_eq_zero_iff]

/-- What `Cache.Get` does when the backend call fails. -/
theorem Cache.Get_of_error {Commit σ : Type} (b : Backend Commit σ) (revs : Slice String)
    (w : World Commit σ) (e : GoError) (h : (b.Get revs w.store).1.2 = some e) :
    Cache.Get (NewCache b) revs w =
      (.ret ((b.Get revs w.store).1.1, some (fmtErrorf getContext e)),
        { store := (b.Get revs w.store).2
          calls := w.calls ++ [Call.get revs]
          log := w.log
          clock := w.clock
          ticks := w.ticks + 1 }) := by
  simp only [Cache.Get, Cache.Get.body, NewCache, backendGet, timeNow, h, Cache.Get.deferred]

/-- What `Cache.Get` does when the backend call succeeds with an iterator. -/
theorem Cache.Get_of_some {Commit σ : Type} (b : Backend Commit σ) (revs : Slice String)
    (w : World Commit σ) (seq : Seq2 Commit (Option GoError))
    (h : (b.Get revs w.store).1.2 = none)
    (hc : (b.Get revs w.store).1.1.Commits = some seq) :
    Cache.Get (NewCache b) revs w = (.ret ((b.Get revs w.store).1.1, none), getWorld b revs w) := by
  simp only [Cache.Get, Cache.Get.body, NewCache, backendGet, timeNow, h, hc, Cache.Get.deferred,
    loggerDebug, getWorld, getRecord]

/-- What `Cache.Get` does when the backend call succeeds without an iterator. -/
theorem Cache.Get_of_nil {Commit σ : Type} (b : Backend Commit σ) (revs : Slice String)
    (w : World Commit σ)
    (h : (b.Get revs w.store).1.2 = none)
    (hc : (b.Get revs w.store).1.1.Commits = none) :
    Cache.Get (NewCache b) revs w = (.panic nilCommitsPanic, getWorld b revs w) := by
  simp only [Cache.Get, Cache.Get.body, NewCache, backendGet, timeNow, h, hc,
    loggerDebug, getWorld, getRecord]

/-- What `Cache.Add` does when the backend call succeeds. -/
theorem Cache.Add_of_nil {Commit σ : Type} (b : Backend Commit σ) (cs : Slice Commit)
    (w : World Commit σ) (h : (b.Add cs w.store).1 = none) :
    Cache.Add (NewCache b) cs w =
      (none,
        { store := (b.Add cs w.store).2
          calls := w.calls ++ [Call.add cs]
          log := w.log ++ [addRecord w]
          clock := w.clock
          ticks := w.ticks + 2 }) := by
  simp only [Cache.Add, NewCache, backendAdd, timeNow, h, loggerDebug, addRecord]

/-- What `Cache.Add` does when the backend call fails. -/
theorem Cache.Add_of_error {Commit σ : Type} (b : Backend Commit σ) (cs : Slice Commit)
    (w : World Commit σ) (e : GoError) (h : (b.Add cs w.store).1 = some e) :
    Cache.Add (NewCache b) cs w =
      (some e,
        { store := (b.Add cs w.store).2
          calls := w.calls ++ [Call.add cs]
          log := w.log
          clock := w.clock
          ticks := w.ticks + 1 }) := by
  simp only [Cache.Add, NewCache, backendAdd, timeNow, h]

/-- What `Cache.Clear` does when the backend call succeeds. -/
theorem Cache.Clear_of_nil {Commit σ : Type} (b : Backend Commit σ)
    (w : World Commit σ) (h : (b.Clear w.store).1 = none) :
    Cache.Clear (NewCache b) w =
      (none,
        { store := (b.Clear w.store).2
          calls := w.calls ++ [Call.clear]
          log := w.log ++ [clearRecord]
          clock := w.clock
          ticks := w.ticks }) := by
  simp only [Cache.Clear, NewCache, backendClear, h, loggerDebug, clearRecord]

/-- What `Cache.Clear` does when the backend call fails. -/
theorem Cache.Clear_of_error {Commit σ : Type} (b : Backend Commit σ)
    (w : World Commit σ) (e : GoError) (h : (b.Clear w.store).1 = some e) :
    Cache.Clear (NewCache b) w =
      (some e,
        { store := (b.Clear w.store).2
          calls := w.calls ++ [Call.clear]
          log := w.log
          clock := w.clock
          ticks := w.ticks }) := by
  simp only [Cache.Clear, NewCache, backendClear, h]

theorem Cache.Get_store {Commit σ : Type} (b : Backend Commit σ) (revs : Slice String)
    (w : World Commit σ) :
    (Cache.Get (NewCache b) revs w).2.store = (b.Get revs w.store).2 := by
  cases h : (b.Get revs w.store).1.2 with
  | some e => rw [Cache.Get_of_error b revs w e h]
  | none =>
    cases hc : (b.Get revs w.store).1.1.Commits with
    | none => rw [Cache.Get_of_nil b revs w h hc]; rfl
    | some sq => rw [Cache.Get_of_some b revs w sq h hc]; rfl

theorem Cache.Get_calls {Commit σ : Type} (b : Backend Commit σ) (revs : Slice String)
    (w : World Commit σ) :
    (Cache.Get (NewCache b) revs w).2.calls = w.calls ++ [Call.get revs] := by
  cases h : (b.Get revs w.store).1.2 with
  | some e => rw [Cache.Get_of_error b revs w e h]
  | none =>
    cases hc : (b.Get revs w.store).1.1.Commits with
    | none => rw [Cache.Get_of_nil b revs w h hc]; rfl
    | some sq => rw [Cache.Get_of_some b revs w sq h hc]; rfl

/-- `Cache.Get` returns a Result with a nil error exactly when the backend call
returned that Result with a nil error and its `Commits` is not nil. -/
theorem Cache.Get_ret_nil_iff {Commit σ : Type} (b : Backend Commit σ) (revs : Slice String)
    (w : World Commit σ) (r : Result Commit) :
    (Cache.Get (NewCache b) revs w).1 = .ret (r, none) ↔
      ((b.Get revs w.store).1.2 = none ∧ (b.Get revs w.store).1.1 = r ∧ r.Commits ≠ none) := by
  cases h : (b.Get revs w.store).1.2 with
  | some e =>
    rw [Cache.Get_of_error b revs w e h]
    simp
  | none =>
    cases hc : (b.Get revs w.store).1.1.Commits with
    | none =>
      rw [Cache.Get_of_nil b revs w h hc]
      constructor
      · intro hp
        cases hp
      · rintro ⟨_, hr, hn⟩
        rw [← hr] at hn
        exact absurd hc hn
    | some sq =>
      rw [Cache.Get_of_some b revs w sq h hc]
      constructor
      · intro hp
        injection hp with hp
        injection hp with hp _
        refine ⟨rfl, hp, ?_⟩
        rw [← hp, hc]
        simp
      · rintro ⟨_, hr, _⟩
        rw [hr]

theorem Cache.Add_fst {Commit σ : Type} (b : Backend Commit σ) (cs : Slice Commit)
    (w : World Commit σ) : (Cache.Add (NewCache b) cs w).1 = (b.Add cs w.store).1 := by
  cases h : (b.Add cs w.store).1 with
  | none => rw [Cache.Add_of_nil b cs w h]
  | some e => rw [Cache.Add_of_error b cs w e h]

theorem Cache.Add_store {Commit σ : Type} (b : Backend Commit σ) (cs : Slice Commit)
    (w : World Commit σ) : (Cache.Add (NewCache b) cs w).2.store = (b.Add cs w.store).2 := by
  cases h : (b.Add cs w.store).1 with
  | none => rw [Cache.Add_of_nil b cs w h]
  | some e => rw [Cache.Add_of_error b cs w e h]

theorem Cache.Add_calls {Commit σ : Type} (b : Backend Commit σ) (cs : Slice Commit)
    (w : World Commit σ) : (Cache.Add (NewCache b) cs w).2.calls = w.calls ++ [Call.add cs] := by
  cases h : (b.Add cs w.store).1 with
  | none => rw [Cache.Add_of_nil b cs w h]
  | some e => rw [Cache.Add_of_error b cs w e h]

theorem Cache.Clear_fst {Commit σ : Type} (b : Backend Commit σ) (w : World Commit σ) :
    (Cache.Clear (NewCache b) w).1 = (b.Clear w.store).1 := by
  cases h : (b.Clear w.store).1 with
  | none => rw [Cache.Clear_of_nil b w h]
  | some e => rw [Cache.Clear_of_error b w e h]

theorem Cache.Clear_store {Commit σ : Type} (b : Backend Commit σ) (w : World Commit σ) :
    (Cache.Clear (NewCache b) w).2.store = (b.Clear w.store).2 := by
  cases h : (b.Clear w.store).1 with
  | none => rw [Cache.Clear_of_nil b w h]
  | some e => rw [Cache.Clear_of_error b w e h]

theorem Cache.Clear_calls {Commit σ : Type} (b : Backend Commit σ) (w : World Commit σ) :
    (Cache.Clear (NewCache b) w).2.calls = w.calls ++ [Call.clear] := by
  cases h : (b.Clear w.store).1 with
  | none => rw [Cache.Clear_of_nil b w h]
  | some e => rw [Cache.Clear_of_error b w e h]

/-! ## The claims -/

/-- C1: when the backend call `b.Get(revs)` returns `(r, nil)` with `r.Commits`
non-nil, `Cache.Get(revs)` on `NewCache(b)` returns exactly `(r, nil)`, the very
Result of the backend with its `Revs` and its `Commits`; the backend is left
in the state its own `Get` left it, and the call made `b.Get` exactly once, with
`revs` as given. -/
theorem Cache.Get_returns_backend_result {Commit σ : Type} (b : Backend Commit σ)
    (revs : Slice String) (w : World Commit σ) (r : Result Commit) (s1 : σ)
    (hget : b.Get revs w.store = ((r, none), s1)) (hcommits : r.Commits ≠ none) :
    (Cache.Get (NewCache b) revs w).1 = .ret (r, none) ∧
    (Cache.Get (NewCache b) revs w).2.store = s1 ∧
    (Cache.Get (NewCache b) revs w).2.calls = w.calls ++ [Call.get revs] := by
  have herr : (b.Get revs w.store).1.2 = none := by rw [hget]
  have hres : (b.Get revs w.store).1.1 = r := by rw [hget]
  obtain ⟨seq, hseq⟩ := Option.ne_none_iff_exists'.mp hcommits
  have hc : (b.Get revs w.store).1.1.Commits = some seq := by rw [hres, hseq]
  rw [Cache.Get_of_some b revs w seq herr hc]
  simp [getWorld, hget]

/-- C1, at the in-memory backend holding commit A, asked for revision A. -/
theorem Cache.Get_returns_backend_result_witness :
    (Cache.Get (NewCache memBackend) (some ["A"]) (World.init [commitA] demoClock)).1
        = .ret ((memBackend.Get (some ["A"]) [commitA]).1.1, none) ∧
    (Cache.Get (NewCache memBackend) (some ["A"]) (World.init [commitA] demoClock)).2.store
        = [commitA] ∧
    (Cache.Get (NewCache memBackend) (some ["A"]) (World.init [commitA] demoClock)).2.calls
        = [] ++ [Call.get (some ["A"])] :=
  Cache.Get_returns_backend_result memBackend (some ["A"]) (World.init [commitA] demoClock)
    (memBackend.Get (some ["A"]) [commitA]).1.1 [commitA] rfl (by simp [memBackend])

/-- C2: when the backend call `b.Get(revs)` returns a non-nil error `e`,
`Cache.Get(revs)` returns, with the backend Result, a non-nil error whose
message is exactly "failed to retrieve from cache: " followed by the message of
`e`, so that it contains "failed to retrieve from cache"; the text is put in
front once; and the error unwraps to `e`. -/
theorem Cache.Get_wraps_backend_error {Commit σ : Type} (b : Backend Commit σ)
    (revs : Slice String) (w : World Commit σ) (r : Result Commit) (e : GoError) (s1 : σ)
    (hget : b.Get revs w.store = ((r, some e), s1)) :
    ∃ err : GoError,
      (Cache.Get (NewCache b) revs w).1 = .ret (r, some err) ∧
      err.Error = "failed to retrieve from cache: " ++ e.Error ∧
      "failed to retrieve from cache".data <:+: err.Error.data ∧
      err.Unwrap = some e := by
  have herr : (b.Get revs w.store).1.2 = some e := by rw [hget]
  have hres : (b.Get revs w.store).1.1 = r := by rw [hget]
  refine ⟨fmtErrorf getContext e, ?_, rfl, ?_, rfl⟩
  · rw [Cache.Get_of_error b revs w e herr, hres]
  · refine ⟨[], (": " ++ e.Error).data, ?_⟩
    simp [fmtErrorf, GoError.Error, getContext, String.data_append]

/-- C2, at the backend whose `Get` fails with "database is locked". -/
theorem Cache.Get_wraps_backend_error_witness :
    ∃ err : GoError,
      (Cache.Get (NewCache failingBackend) (some ["A"]) (World.init () demoClock)).1
        = .ret ({ Revs := none, Commits := none }, some err) ∧
      err.Error = "failed to retrieve from cache: " ++ "database is locked" ∧
      "failed to retrieve from cache".data <:+: err.Error.data ∧
      err.Unwrap = some (.plain "database is locked") :=
  Cache.Get_wraps_backend_error failingBackend (some ["A"]) (World.init () demoClock)
    { Revs := none, Commits := none } (.plain "database is locked") () rfl

/-- C3, as stated, fails: the backend whose `Get` returns the zero Result, with
nil `Commits`, together with an error. `Cache.Get` does not panic; it returns
that Result and the wrapped error. -/
theorem Cache.Get_nil_commits_with_error_returns :
    (failingBackend.Get (some ["A"]) ()).1.1.Commits = none ∧
    (Cache.Get (NewCache failingBackend) (some ["A"]) (World.init () demoClock)).1.panicked
      = false ∧
    (Cache.Get (NewCache failingBackend) (some ["A"]) (World.init () demoClock)).1
      = .ret ({ Revs := none, Commits := none },
          some (.wrapped "failed to retrieve from cache: database is locked"
            (.plain "database is locked"))) :=
  ⟨rfl, rfl, rfl⟩

/-- C3, amended: when the backend call `b.Get(revs)` returns a nil error and a
Result whose `Commits` is nil, `Cache.Get(revs)` panics, with the message of
cache.go line 86; it returns neither a Result nor an error. -/
theorem Cache.Get_panics_on_nil_commits {Commit σ : Type} (b : Backend Commit σ)
    (revs : Slice String) (w : World Commit σ) (r : Result Commit) (s1 : σ)
    (hget : b.Get revs w.store = ((r, none), s1)) (hcommits : r.Commits = none) :
    (Cache.Get (NewCache b) revs w).1 =
      .panic "Cache backend returned nil commits iterator; this isn't kosher!" ∧
    (Cache.Get (NewCache b) revs w).1.panicked = true := by
  have herr : (b.Get revs w.store).1.2 = none := by rw [hget]
  have hc : (b.Get revs w.store).1.1.Commits = none := by rw [hget]; exact hcommits
  rw [Cache.Get_of_nil b revs w herr hc]
  exact ⟨rfl, rfl⟩

/-- C3, amended, at the backend whose `Get` succeeds with the zero Result. -/
theorem Cache.Get_panics_on_nil_commits_witness :
    (Cache.Get (NewCache brokenBackend) (some ["A"]) (World.init () demoClock)).1 =
      .panic "Cache backend returned nil commits iterator; this isn't kosher!" ∧
    (Cache.Get (NewCache brokenBackend) (some ["A"]) (World.init () demoClock)).1.panicked
      = true :=
  Cache.Get_panics_on_nil_commits brokenBackend (some ["A"]) (World.init () demoClock)
    { Revs := none, Commits := none } () rfl rfl

/-- C4: `Cache.Add(cs)` returns exactly the error value `b.Add(cs)` returned, so
nil exactly when the backend returned nil, and `Cache.Clear()` returns exactly
the error value `b.Clear()` returned. Each leaves the backend in the state the
backend operation left it and makes that one backend call. -/
theorem Cache.Add_Clear_return_backend_error {Commit σ : Type} (b : Backend Commit σ)
    (cs : Slice Commit) (w : World Commit σ) :
    ((Cache.Add (NewCache b) cs w).1 = (b.Add cs w.store).1 ∧
      ((Cache.Add (NewCache b) cs w).1 = none ↔ (b.Add cs w.store).1 = none) ∧
      (Cache.Add (NewCache b) cs w).2.store = (b.Add cs w.store).2 ∧
      (Cache.Add (NewCache b) cs w).2.calls = w.calls ++ [Call.add cs]) ∧
    ((Cache.Clear (NewCache b) w).1 = (b.Clear w.store).1 ∧
      ((Cache.Clear (NewCache b) w).1 = none ↔ (b.Clear w.store).1 = none) ∧
      (Cache.Clear (NewCache b) w).2.store = (b.Clear w.store).2 ∧
      (Cache.Clear (NewCache b) w).2.calls = w.calls ++ [Call.clear]) := by
  constructor
  · cases h : (b.Add cs w.store).1 with
    | none => rw [Cache.Add_of_nil b cs w h]; simp
    | some e => rw [Cache.Add_of_error b cs w e h]; simp
  · cases h : (b.Clear w.store).1 with
    | none => rw [Cache.Clear_of_nil b w h]; simp
    | some e => rw [Cache.Clear_of_error b w e h]; simp

/-- C5: `EmptyResult()` has no hits, its `Revs` has length 0, its `Commits` is
non-nil, and a traversal of `Commits` never runs the loop body: it collects no
pair, and it leaves the state of every consumer as it was, also when the
sequence is traversed a second time. -/
theorem EmptyResult_is_empty (Commit : Type) :
    (EmptyResult Commit).AnyHits = false ∧
    (EmptyResult Commit).Revs.len = 0 ∧
    ∃ seq : Seq2 Commit (Option GoError),
      (EmptyResult Commit).Commits = some seq ∧
      seq.collect = [] ∧
      (∀ (β : Type) (yield : Commit → Option GoError → β → Bool × β) (st : β),
        seq β yield st = st) ∧
      (∀ (β : Type) (first second : Commit → Option GoError → β → Bool × β) (st : β),
        seq β second (seq β first st) = st) :=
  ⟨rfl, rfl, _, rfl, rfl, fun _ _ _ => rfl, fun _ _ _ _ => rfl⟩

/-- C6: `r.AnyHits()` is true exactly when `len(r.Revs) > 0`, for every Result,
the one with nil `Revs` and nil `Commits` included; and two Results with the
same `Revs` agree on it whatever their `Commits`. -/
theorem Result.AnyHits_iff {Commit : Type} (r : Result Commit) :
    (r.AnyHits = true ↔ r.Revs.len > 0) ∧
    (∀ (revs : Slice String) (c1 c2 : Option (Seq2 Commit (Option GoError))),
      Result.AnyHits { Revs := revs, Commits := c1 }
        = Result.AnyHits { Revs := revs, Commits := c2 }) ∧
    Result.AnyHits ({ Revs := none, Commits := none } : Result Commit) = false := by
  refine ⟨?_, fun _ _ _ => rfl, rfl⟩
  simp [Result.AnyHits]

/-- C7: `IsCachingEnabled()` returns false exactly when GIT_WHO_DISABLE_CACHE
has a non-empty value, and true exactly when it is absent or set to the empty
string; "1", "true", "0" and "false" all disable; and the result is that of the
environment holding this one variable alone. -/
theorem IsCachingEnabled_iff (env : Environ) :
    (IsCachingEnabled env = false ↔
      ∃ v, env "GIT_WHO_DISABLE_CACHE" = some v ∧ v ≠ "") ∧
    (IsCachingEnabled env = true ↔
      (env "GIT_WHO_DISABLE_CACHE" = none ∨ env "GIT_WHO_DISABLE_CACHE" = some "")) ∧
    IsCachingEnabled (envWith "GIT_WHO_DISABLE_CACHE" "1") = false ∧
    IsCachingEnabled (envWith "GIT_WHO_DISABLE_CACHE" "true") = false ∧
    IsCachingEnabled (envWith "GIT_WHO_DISABLE_CACHE" "0") = false ∧
    IsCachingEnabled (envWith "GIT_WHO_DISABLE_CACHE" "false") = false ∧
    IsCachingEnabled env = IsCachingEnabled (envOnly env "GIT_WHO_DISABLE_CACHE") := by
  have key : ∀ e : Environ, IsCachingEnabled e = false ↔
      ∃ v, e "GIT_WHO_DISABLE_CACHE" = some v ∧ v ≠ "" := by
    intro e
    unfold IsCachingEnabled Getenv
    cases h : e "GIT_WHO_DISABLE_CACHE" with
    | none => simp [strLen_eq_zero_iff]
    | some v =>
      by_cases hv : v = ""
      · simp [hv, strLen_eq_zero_iff]
      · simp [hv, strLen_pos_iff]
  refine ⟨key env, ?_, ?_, ?_, ?_, ?_, ?_⟩
  · rw [← Bool.not_eq_false, key env]
    cases h : env "GIT_WHO_DISABLE_CACHE" with
    | none => simp
    | some v => simp
  · exact (key _).mpr ⟨"1", by simp [envWith], by decide⟩
  · exact (key _).mpr ⟨"true", by simp [envWith], by decide⟩
  · exact (key _).mpr ⟨"0", by simp [envWith], by decide⟩
  · exact (key _).mpr ⟨"false", by simp [envWith], by decide⟩
  · simp [IsCachingEnabled, Getenv, envOnly]

/-- C9: with the debug logger as the list of records emitted so far. After
`Cache.Get` the list is the one before, followed, when the backend call
succeeded, by the one record "cache get" with the fields duration_ms and hit,
hit being `AnyHits()` of the backend Result, whether or not `Get` then panics,
and by nothing when the backend call failed. After `Cache.Add` it is followed by
the one record "cache add" with the field duration_ms on success and by nothing
on failure; after `Cache.Clear` by the one record "cache clear" without fields
on success and by nothing on failure. -/
theorem Cache.debug_records {Commit σ : Type} (b : Backend Commit σ)
    (revs : Slice String) (cs : Slice Commit) (w : World Commit σ) :
    (Cache.Get (NewCache b) revs w).2.log = w.log ++
      (match (b.Get revs w.store).1.2 with
        | none =>
          [{ msg := "cache get"
             fields :=
              [("duration_ms",
                  .int (Milliseconds (timeSub (w.clock (w.ticks + 1)) (w.clock w.ticks)))),
                ("hit", .bool (b.Get revs w.store).1.1.AnyHits)] }]
        | some _ => []) ∧
    (Cache.Add (NewCache b) cs w).2.log = w.log ++
      (match (b.Add cs w.store).1 with
        | none =>
          [{ msg := "cache add"
             fields :=
              [("duration_ms",
                  .int (Milliseconds (timeSub (w.clock (w.ticks + 1)) (w.clock w.ticks))))] }]
        | some _ => []) ∧
    (Cache.Clear (NewCache b) w).2.log = w.log ++
      (match (b.Clear w.store).1 with
        | none => [{ msg := "cache clear", fields := [] }]
        | some _ => []) := by
  refine ⟨?_, ?_, ?_⟩
  · cases h : (b.Get revs w.store).1.2 with
    | some e => rw [Cache.Get_of_error b revs w e h]; simp
    | none =>
      cases hc : (b.Get revs w.store).1.1.Commits with
      | none => rw [Cache.Get_of_nil b revs w h hc]; rfl
      | some seq => rw [Cache.Get_of_some b revs w seq h hc]; rfl
  · cases h : (b.Add cs w.store).1 with
    | none => rw [Cache.Add_of_nil b cs w h]; rfl
    | some e => rw [Cache.Add_of_error b cs w e h]; simp
  · cases h : (b.Clear w.store).1 with
    | none => rw [Cache.Clear_of_nil b w h]; rfl
    | some e => rw [Cache.Clear_of_error b w e h]; simp

/-- C9, at the backend whose `Get` succeeds with nil `Commits`: the call panics
and the record "cache get" is in the list all the same. -/
theorem Cache.debug_records_witness :
    (Cache.Get (NewCache brokenBackend) (some ["A"]) (World.init () demoClock)).1.panicked
      = true ∧
    (Cache.Get (NewCache brokenBackend) (some ["A"]) (World.init () demoClock)).2.log
      = [] ++ [{ msg := "cache get"
                 fields := [("duration_ms", .int 1), ("hit", .bool false)] }] :=
  ⟨rfl, (Cache.debug_records brokenBackend (some ["A"]) none (World.init () demoClock)).1⟩

/-- C10: `Cache.Get` panics exactly when the backend call returned a nil error
together with nil `Commits`. When the backend call returned a non-nil error `e`,
`Cache.Get` returns, whatever the `Commits` of the backend Result, that very
Result with the error wrapping `e`. -/
theorem Cache.Get_panics_iff {Commit σ : Type} (b : Backend Commit σ)
    (revs : Slice String) (w : World Commit σ) :
    ((Cache.Get (NewCache b) revs w).1.panicked = true ↔
      ((b.Get revs w.store).1.2 = none ∧ (b.Get revs w.store).1.1.Commits = none)) ∧
    (∀ e : GoError, (b.Get revs w.store).1.2 = some e →
      (Cache.Get (NewCache b) revs w).1 =
        .ret ((b.Get revs w.store).1.1,
          some (.wrapped ("failed to retrieve from cache: " ++ e.Error) e))) := by
  constructor
  · cases h : (b.Get revs w.store).1.2 with
    | some e => rw [Cache.Get_of_error b revs w e h]; simp [Outcome.panicked]
    | none =>
      cases hc : (b.Get revs w.store).1.1.Commits with
      | none => rw [Cache.Get_of_nil b revs w h hc]; simp [Outcome.panicked]
      | some seq => rw [Cache.Get_of_some b revs w seq h hc]; simp [Outcome.panicked]
  · intro e h
    rw [Cache.Get_of_error b revs w e h]
    rfl

/-- C10, at the backend whose `Get` fails and returns nil `Commits`: no panic,
and the Result with nil `Commits` reaches the caller. -/
theorem Cache.Get_panics_iff_witness :
    (Cache.Get (NewCache failingBackend) none (World.init () demoClock)).1 =
      .ret ({ Revs := none, Commits := none },
        some (.wrapped ("failed to retrieve from cache: " ++ "database is locked")
          (.plain "database is locked"))) :=
  (Cache.Get_panics_iff failingBackend none (World.init () demoClock)).2
    (.plain "database is locked") rfl

/-- C8, as stated, fails: the backend over read-only storage starts empty and
meets the contract, its `Add` never succeeding, and on a cache over it `Add([a])`
returns the backend error, so the scenario does not hold. -/
theorem CacheScenario_fails_on_readOnlyBackend :
    BackendContract DemoCommit.Hash readOnlyBackend () ∧
    (Cache.Add (NewCache readOnlyBackend) (some [commitA]) (World.init () demoClock)).1
      = some (.plain "read-only file system") ∧
    ¬ CacheScenario DemoCommit.Hash readOnlyBackend (World.init () demoClock) commitA := by
  refine ⟨⟨fun _ => rfl, ?_, ?_, fun _ _ _ => rfl⟩, rfl, ?_⟩
  · intro revs s
    simp [readOnlyBackend, EmptyResult]
  · intro cs s a _ h
    simp [readOnlyBackend] at h
  · intro h
    have h1 := h.1
    simp [Cache.Add, NewCache, backendAdd, timeNow, readOnlyBackend, World.init] at h1

/-- C8, amended: for a backend that meets the contract, the scenario holds on
a cache over it exactly when the same four calls made on the backend itself
succeed, the first `Get` returning `Revs == [h]` and a sequence yielding exactly
`(a, nil)`; and every cache operation, from any world, leaves the backend in
the state the backend operation leaves it, having made that one backend call. -/
theorem Cache.scenario_transparent {Commit σ : Type} (hash : Commit → String)
    (b : Backend Commit σ) (w0 : World Commit σ) (a : Commit)
    (hcontract : BackendContract hash b w0.store) :
    (CacheScenario hash b w0 a ↔ BackendSucceeds hash b w0.store a) ∧
    (∀ (w : World Commit σ) (revs : Slice String),
      (Cache.Get (NewCache b) revs w).2.store = (b.Get revs w.store).2 ∧
      (Cache.Get (NewCache b) revs w).2.calls = w.calls ++ [Call.get revs]) ∧
    (∀ (w : World Commit σ) (cs : Slice Commit),
      (Cache.Add (NewCache b) cs w).2.store = (b.Add cs w.store).2 ∧
      (Cache.Add (NewCache b) cs w).2.calls = w.calls ++ [Call.add cs]) ∧
    (∀ (w : World Commit σ),
      (Cache.Clear (NewCache b) w).2.store = (b.Clear w.store).2 ∧
      (Cache.Clear (NewCache b) w).2.calls = w.calls ++ [Call.clear]) := by
  obtain ⟨_, hnonnil, _, hcleared⟩ := hcontract
  refine ⟨?_, fun w revs => ⟨Cache.Get_store b revs w, Cache.Get_calls b revs w⟩,
    fun w cs => ⟨Cache.Add_store b cs w, Cache.Add_calls b cs w⟩,
    fun w => ⟨Cache.Clear_store b w, Cache.Clear_calls b w⟩⟩
  simp only [CacheScenario, BackendSucceeds, Cache.Get_ret_nil_iff, Cache.Add_fst,
    Cache.Clear_fst, Cache.Get_store, Cache.Add_store, Cache.Clear_store]
  constructor
  · rintro ⟨h1, ⟨r, seq, ⟨h2e, h2r, _⟩, hrevs, hseq, hy⟩, h3, ⟨r4, ⟨h4e, _, _⟩, _⟩⟩
    subst h2r
    exact ⟨h1, ⟨h2e, hrevs, seq, hseq, hy⟩, h3, h4e⟩
  · rintro ⟨h1, ⟨h2e, hrevs, seq, hseq, hy⟩, h3, h4e⟩
    refine ⟨h1, ⟨_, seq, ⟨h2e, rfl, ?_⟩, hrevs, hseq, hy⟩, h3, ⟨_, ⟨h4e, rfl, ?_⟩, ?_⟩⟩
    · rw [hseq]
      simp
    · exact hnonnil _ _
    · exact hcleared _ _ h3

/-- C8, amended, at the in-memory backend, started empty, and commit A: the
backend meets the contract, its four calls succeed, and the scenario holds on
the cache over it. -/
theorem Cache.scenario_transparent_witness :
    BackendContract DemoCommit.Hash memBackend [] ∧
    BackendSucceeds DemoCommit.Hash memBackend [] commitA ∧
    CacheScenario DemoCommit.Hash memBackend (World.init [] demoClock) commitA := by
  have hcontract : BackendContract DemoCommit.Hash memBackend [] := by
    refine ⟨fun _ => rfl, ?_, ?_, fun _ _ _ => rfl⟩
    · intro revs s
      simp [memBackend]
    · intro cs s a ha _
      simp only [memBackend, Slice.elems, List.mem_map, List.mem_filter, List.mem_append,
        decide_eq_true_eq, List.mem_singleton]
      exact ⟨a, ⟨Or.inr ha, rfl⟩, rfl⟩
  have hrun : BackendSucceeds DemoCommit.Hash memBackend [] commitA := by
    refine ⟨rfl, ⟨rfl, ?_, _, rfl, ?_⟩, rfl, rfl⟩
    · decide
    · decide
  exact ⟨hcontract, hrun,
    (Cache.scenario_transparent DemoCommit.Hash memBackend (World.init [] demoClock) commitA
      hcontract).1.mpr hrun⟩

end GitWho
